import Mathlib

/-!
Shallow embedding of the SAMDA accounts MVP billing core
(`models.py`, `services.py`, `views.py`).

Monetary values (Python `Decimal` columns with `decimal_places=2`) are
modelled as rationals; `Decimal.quantize(Decimal("0.01"))` under the
default context rounding `ROUND_HALF_EVEN` is modelled by `quantize2`.
The Django database is modelled as explicit state: a list of tax
profiles, a list of sequence counters, and a `World` of payments,
invoices, allocations and receipts.  Dates (`effective_from`) are
modelled as integers.
-/

namespace Samda

attribute [local semireducible] Rat.mul Rat.add Rat.sub Rat.inv

/-- Round-half-even of a rational to an integer (the rounding used by
Python `Decimal.quantize` in the default context). -/
def roundHalfEven (x : ℚ) : ℤ :=
  if x - ⌊x⌋ < 1/2 then ⌊x⌋
  else if 1/2 < x - ⌊x⌋ then ⌊x⌋ + 1
  else if ⌊x⌋ % 2 = 0 then ⌊x⌋ else ⌊x⌋ + 1

/-- `Decimal.quantize(Decimal("0.01"))` with `ROUND_HALF_EVEN`:
round to 2 decimal places. -/
def quantize2 (x : ℚ) : ℚ := (roundHalfEven (x * 100) : ℚ) / 100

/-- `x` is an integer number of hundredths, i.e. exactly representable
in a `Decimal` column with `decimal_places=2`. -/
def isCent (x : ℚ) : Prop := (x * 100).den = 1

instance (x : ℚ) : Decidable (isCent x) := by unfold isCent; infer_instance

/-- `core.models.TaxProfile` as consumed by the billing app: a rate
triple plus the activation flag and effective date used by
`recompute_totals`' queryset. -/
structure TaxProfile where
  name : String := ""
  vat_rate : ℚ
  nhil_rate : ℚ
  getfund_rate : ℚ
  is_active : Bool
  effective_from : ℤ
deriving DecidableEq

/-- One fold step of picking the active profile with the greatest
`effective_from` (first winner kept on ties). -/
def pickLater (acc : Option TaxProfile) (p : TaxProfile) : Option TaxProfile :=
  match acc with
  | none => some p
  | some q => if q.effective_from < p.effective_from then some p else some q

/-- `TaxProfile.objects.filter(is_active=True).order_by("-effective_from").first()`:
the active profile with the greatest `effective_from`, if any. -/
def activeProfileFirst (db : List TaxProfile) : Option TaxProfile :=
  (db.filter (fun p => p.is_active)).foldl pickLater none

/-- `f"{n:06d}"`: decimal representation zero-padded to 6 digits. -/
def pad6 (n : Nat) : String :=
  let s := toString n
  String.mk (List.replicate (6 - s.length) '0') ++ s

/-- A `DocumentSequence` row.  The source field `prefix` is a Lean
keyword and is rendered here as `pfx`. -/
structure DocumentSequence where
  key : String
  pfx : String
  next_number : Nat
deriving DecidableEq

/-- Row lookup by unique `key`. -/
def findSeq (db : List DocumentSequence) (key : String) : Option DocumentSequence :=
  db.find? (fun s => s.key == key)

/-- `DocumentSequence.next(key)` with the intermediate integer `number`
exposed as the first component; the second component is the returned
string, the third the database after the `save`.  `get_or_create`
creates the missing row with `prefix="SAMDA/"`, `next_number=1`. -/
def DocumentSequence.nextResult (db : List DocumentSequence) (key : String) :
    Nat × String × List DocumentSequence :=
  match findSeq db key with
  | none => (1, "SAMDA/" ++ pad6 1, db ++ [⟨key, "SAMDA/", 2⟩])
  | some s => (s.next_number, s.pfx ++ pad6 s.next_number,
      db.map (fun t => if t.key == key then { t with next_number := t.next_number + 1 } else t))

/-- `DocumentSequence.next(key)`: the returned string and the new
database state. -/
def DocumentSequence.next (db : List DocumentSequence) (key : String) :
    String × List DocumentSequence :=
  ((DocumentSequence.nextResult db key).2.1, (DocumentSequence.nextResult db key).2.2)

/-- The stored `next_number` of a key (a key with no row yet behaves as
`next_number = 1`, which is what `get_or_create` would materialize). -/
def storedNext (db : List DocumentSequence) (key : String) : Nat :=
  match findSeq db key with
  | none => 1
  | some s => s.next_number

/-- `m` consecutive `DocumentSequence.next` calls on the same key:
the returned integers and the final database state. -/
def seqRun (db : List DocumentSequence) (key : String) : Nat → List Nat × List DocumentSequence
  | 0 => ([], db)
  | Nat.succ n =>
    let r := DocumentSequence.nextResult db key
    let rest := seqRun r.2.2 key n
    (r.1 :: rest.1, rest.2)

/-- `Invoice.InvoiceType`. -/
inductive InvoiceType where | VAT | NONVAT
deriving DecidableEq

/-- `Invoice.Status`. -/
inductive Status where | DRAFT | ISSUED | PART_PAID | PAID | VOID
deriving DecidableEq

/-- `InvoiceLine`: quantity and unit price are 2-decimal columns. -/
structure InvoiceLine where
  description : String := ""
  qty : ℚ
  unit_price : ℚ
deriving DecidableEq

/-- `InvoiceLine.line_total`: `(qty * unit_price).quantize("0.01")`. -/
def InvoiceLine.line_total (ln : InvoiceLine) : ℚ :=
  quantize2 (ln.qty * ln.unit_price)

/-- `Invoice`: the customer is referenced by id; `lines` is the related
set `self.lines`; the five monetary fields are the cached recompute
results. -/
structure Invoice where
  invoice_type : InvoiceType
  status : Status := Status.DRAFT
  invoice_no : String := ""
  customer : Nat
  tax_profile : Option TaxProfile := none
  lines : List InvoiceLine := []
  subtotal : ℚ := 0
  vat : ℚ := 0
  nhil : ℚ := 0
  getfund : ℚ := 0
  total : ℚ := 0
deriving DecidableEq

/-- `self.tax_profile or TaxProfile.objects.filter(is_active=True)
.order_by("-effective_from").first()`. -/
def Invoice.resolvedProfile (db : List TaxProfile) (inv : Invoice) : Option TaxProfile :=
  match inv.tax_profile with
  | some tp => some tp
  | none => activeProfileFirst db

/-- `Invoice.recompute_totals`: exact sum of the (per-line rounded)
line totals; tax components only for VAT invoices and only when a
profile resolves; every cached field quantized to 2 decimal places. -/
def Invoice.recompute_totals (db : List TaxProfile) (inv : Invoice) : Invoice :=
  let subtotal := (inv.lines.map InvoiceLine.line_total).sum
  let tp := if inv.invoice_type = InvoiceType.VAT then Invoice.resolvedProfile db inv else none
  let vat := match tp with | some p => quantize2 (subtotal * p.vat_rate) | none => 0
  let nhil := match tp with | some p => quantize2 (subtotal * p.nhil_rate) | none => 0
  let getfund := match tp with | some p => quantize2 (subtotal * p.getfund_rate) | none => 0
  let total := quantize2 (subtotal + vat + nhil + getfund)
  { inv with subtotal := quantize2 subtotal, vat := vat, nhil := nhil,
             getfund := getfund, total := total }

/-- `PaymentAllocation`: payment and invoice referenced by id. -/
structure PaymentAllocation where
  payment : Nat
  invoice : Nat
  amount : ℚ
deriving DecidableEq

/-- Sum of allocation amounts (`sum((a.amount for a in ...), 0)`). -/
def sumAmounts (l : List PaymentAllocation) : ℚ :=
  (l.map PaymentAllocation.amount).sum

/-- `Invoice.amount_paid`, given the invoice's allocation rows. -/
def Invoice.amount_paid (invAllocs : List PaymentAllocation) : ℚ :=
  sumAmounts invAllocs

/-- `Invoice.balance_due`, given the invoice's allocation rows. -/
def Invoice.balance_due (inv : Invoice) (invAllocs : List PaymentAllocation) : ℚ :=
  quantize2 (inv.total - Invoice.amount_paid invAllocs)

/-- `Invoice.assign_number_if_needed`: draw from `INV_VAT` or
`INV_NONVAT` only when `invoice_no` is empty. -/
def Invoice.assign_number_if_needed (seqs : List DocumentSequence) (inv : Invoice) :
    Invoice × List DocumentSequence :=
  if inv.invoice_no ≠ "" then (inv, seqs)
  else if inv.invoice_type = InvoiceType.VAT then
    let r := DocumentSequence.next seqs "INV_VAT"
    ({ inv with invoice_no := r.1 }, r.2)
  else
    let r := DocumentSequence.next seqs "INV_NONVAT"
    ({ inv with invoice_no := r.1 }, r.2)

/-- `Payment`: amount is a 2-decimal column; customer optional. -/
structure Payment where
  payer_name : String := ""
  amount : ℚ
  customer : Option Nat := none
deriving DecidableEq

/-- `Receipt` (only the document number matters to the core). -/
structure Receipt where
  receipt_no : String := ""
deriving DecidableEq

/-- `Receipt.assign_number_if_needed`. -/
def Receipt.assign_number_if_needed (seqs : List DocumentSequence) (r : Receipt) :
    Receipt × List DocumentSequence :=
  if r.receipt_no ≠ "" then (r, seqs)
  else
    let n := DocumentSequence.next seqs "RECEIPT"
    ({ r with receipt_no := n.1 }, n.2)

/-- `services.issue_invoice`: no-op unless DRAFT; otherwise assign a
number if needed, recompute totals, set status ISSUED. -/
def issue_invoice (db : List TaxProfile) (seqs : List DocumentSequence) (inv : Invoice) :
    Invoice × List DocumentSequence :=
  if inv.status ≠ Status.DRAFT then (inv, seqs)
  else
    let an := Invoice.assign_number_if_needed seqs inv
    let inv2 := Invoice.recompute_totals db an.1
    ({ inv2 with status := Status.ISSUED }, an.2)

/-- The database state seen by the views: payments and invoices are
addressed by their list index, allocations and receipts are rows. -/
structure World where
  payments : List Payment
  invoices : List Invoice
  allocs : List PaymentAllocation
  receipts : List (Nat × Receipt) := []
deriving DecidableEq

/-- Default row returned for an id that is not present. -/
def dPayment : Payment := { amount := 0 }

/-- Default row returned for an id that is not present. -/
def dInvoice : Invoice := { invoice_type := InvoiceType.NONVAT, customer := 0 }

def World.payment (w : World) (pid : Nat) : Payment := w.payments.getD pid dPayment

def World.invoice (w : World) (iid : Nat) : Invoice := w.invoices.getD iid dInvoice

/-- `payment.allocations.all()`. -/
def World.allocsOfPayment (w : World) (pid : Nat) : List PaymentAllocation :=
  w.allocs.filter (fun a => a.payment == pid)

/-- `invoice.allocations.all()`. -/
def World.allocsOfInvoice (w : World) (iid : Nat) : List PaymentAllocation :=
  w.allocs.filter (fun a => a.invoice == iid)

/-- The `AllocationForm` validation plus the object lookups of the
view: both rows exist, `amount` is a positive 2-decimal value of at
least `0.01`, the invoice is in the ISSUED/PART_PAID queryset, and the
invoice belongs to the payment's customer when one is set. -/
def formValid (w : World) (pid iid : Nat) (amount : ℚ) : Bool :=
  decide (pid < w.payments.length) && decide (iid < w.invoices.length) &&
  decide ((1 : ℚ)/100 ≤ amount) && decide (isCent amount) &&
  ((w.invoice iid).status == Status.ISSUED || (w.invoice iid).status == Status.PART_PAID) &&
  (match (w.payment pid).customer with
   | some c => (w.invoice iid).customer == c
   | none => true)

/-- The POST branch of `views.payment_allocate`: guard against the
remaining payment, then recompute-and-save the invoice, guard against
its balance due, and only then create the allocation row.  Returns the
new world and whether the allocation was accepted. -/
def payment_allocate (db : List TaxProfile) (w : World) (pid iid : Nat) (amount : ℚ) :
    World × Bool :=
  if formValid w pid iid amount then
    let allocated_sum := sumAmounts (w.allocsOfPayment pid)
    let remaining := (w.payment pid).amount - allocated_sum
    if remaining < amount then (w, false)
    else
      let inv := Invoice.recompute_totals db (w.invoice iid)
      let w1 := { w with invoices := w.invoices.set iid inv }
      if Invoice.balance_due inv (w1.allocsOfInvoice iid) < amount then (w1, false)
      else ({ w1 with allocs := w1.allocs ++ [⟨pid, iid, amount⟩] }, true)
  else (w, false)

/-- One turn of the settle loop in `create_receipt_for_payment`:
recompute the invoice, derive its balance, persist PAID/PART_PAID. -/
def settleInvoice (db : List TaxProfile) (w : World) (iid : Nat) : World :=
  let inv := Invoice.recompute_totals db (w.invoice iid)
  let bal := Invoice.balance_due inv (w.allocsOfInvoice iid)
  let inv2 := { inv with status := if bal ≤ 0 then Status.PAID else Status.PART_PAID }
  { w with invoices := w.invoices.set iid inv2 }

/-- `services.create_receipt_for_payment`: return the existing receipt
unchanged if there is one; otherwise create one, draw a `RECEIPT`
number, and re-settle every invoice touched by the payment's
allocations. -/
def create_receipt_for_payment (db : List TaxProfile) (seqs : List DocumentSequence)
    (w : World) (pid : Nat) : Receipt × List DocumentSequence × World :=
  match w.receipts.find? (fun pr => pr.1 == pid) with
  | some pr => (pr.2, seqs, w)
  | none =>
    let rn := Receipt.assign_number_if_needed seqs { receipt_no := "" }
    let w1 := (w.allocsOfPayment pid).foldl (fun acc a => settleInvoice db acc a.invoice) w
    (rn.1, rn.2, { w1 with receipts := w1.receipts ++ [(pid, rn.1)] })

/-- A sequence of allocation attempts, run through the view. -/
def runAllocs (db : List TaxProfile) (w : World) : List (Nat × Nat × ℚ) → World
  | [] => w
  | r :: rs => runAllocs db (payment_allocate db w r.1 r.2.1 r.2.2).1 rs

/-- Sum allocated out of a payment. -/
def sumPayAlloc (w : World) (pid : Nat) : ℚ := sumAmounts (w.allocsOfPayment pid)

/-- Sum allocated against an invoice. -/
def sumInvAlloc (w : World) (iid : Nat) : ℚ := sumAmounts (w.allocsOfInvoice iid)

/-- A sane pre-allocation database: no allocation rows yet, no negative
payment amounts, and no invoice whose (cached or recomputed) total is
negative. -/
def InitialOk (db : List TaxProfile) (w : World) : Prop :=
  w.allocs = [] ∧
  (∀ p ∈ w.payments, 0 ≤ p.amount) ∧
  (∀ i ∈ w.invoices, 0 ≤ i.total ∧ 0 ≤ (Invoice.recompute_totals db i).total)

instance (db : List TaxProfile) (w : World) : Decidable (InitialOk db w) := by
  unfold InitialOk; infer_instance

/-- The allocator's running invariant. -/
def AllocInvariant (db : List TaxProfile) (w : World) : Prop :=
  (∀ a ∈ w.allocs,
      a.payment < w.payments.length ∧ a.invoice < w.invoices.length ∧ isCent a.amount) ∧
  (∀ pid, sumPayAlloc w pid ≤ (w.payment pid).amount) ∧
  (∀ iid, sumInvAlloc w iid ≤ (w.invoice iid).total) ∧
  (∀ iid, sumInvAlloc w iid ≤ (Invoice.recompute_totals db (w.invoice iid)).total)

/-! Concrete database states used to evaluate the operations. -/

/-- An issued non-VAT invoice over one line `1 × 100.00`, with its
cached totals up to date. -/
def exInvIssued : Invoice :=
  { invoice_type := InvoiceType.NONVAT, status := Status.ISSUED,
    invoice_no := "SAMDA/INV/000001", customer := 0,
    lines := [{ qty := 1, unit_price := 100 }],
    subtotal := 100, total := 100 }

/-- A world with one 100.00 payment and `exInvIssued`. -/
def exWorldA : World :=
  { payments := [{ amount := 100 }], invoices := [exInvIssued], allocs := [] }

/-- The same invoice but with stale cached totals (`total = 0`) — as
after editing its lines without re-viewing it. -/
def exInvStale : Invoice :=
  { invoice_type := InvoiceType.NONVAT, status := Status.ISSUED,
    invoice_no := "SAMDA/INV/000002", customer := 0,
    lines := [{ qty := 1, unit_price := 100 }],
    subtotal := 0, total := 0 }

/-- A world with one 500.00 payment and `exInvStale`. -/
def exWorldStale : World :=
  { payments := [{ amount := 500 }], invoices := [exInvStale], allocs := [] }

/-- An active tax profile with a 15% VAT rate. -/
def exProfile15 : TaxProfile :=
  { vat_rate := 15/100, nhil_rate := 0, getfund_rate := 0,
    is_active := true, effective_from := 0 }

/-- A later active tax profile with a 20% VAT rate. -/
def exProfile20 : TaxProfile :=
  { vat_rate := 20/100, nhil_rate := 0, getfund_rate := 0,
    is_active := true, effective_from := 1 }

/-- An inactive tax profile. -/
def exProfileOff : TaxProfile :=
  { vat_rate := 15/100, nhil_rate := 25/1000, getfund_rate := 25/1000,
    is_active := false, effective_from := 5 }

/-- A draft VAT invoice with one line `1 × 100.00` and no frozen
profile. -/
def exInvVatDraft : Invoice :=
  { invoice_type := InvoiceType.VAT, status := Status.DRAFT, customer := 0,
    lines := [{ qty := 1, unit_price := 100 }] }

/-- A draft invoice whose two lines each have the exact product
`0.025`: per-line rounding gives `0.02 + 0.02`, a single final
rounding would give `0.05`. -/
def exInvQuarterLines : Invoice :=
  { invoice_type := InvoiceType.NONVAT, status := Status.DRAFT, customer := 0,
    lines := [{ qty := 1/10, unit_price := 1/4 }, { qty := 1/10, unit_price := 1/4 }] }

/-- The subtotal as the SPEC §4.2 words it (for refinement comparison
only): exact sum of the per-line products, rounded once at the end. -/
def specSubtotal (inv : Invoice) : ℚ :=
  quantize2 ((inv.lines.map (fun ln => ln.qty * ln.unit_price)).sum)

/-- A draft non-VAT invoice that already carries a number. -/
def exInvPreNumbered : Invoice :=
  { invoice_type := InvoiceType.NONVAT, status := Status.DRAFT,
    invoice_no := "SAMDA/INV/000777", customer := 0,
    lines := [{ qty := 1, unit_price := 100 }] }

/-- A world with a payment that already has a receipt. -/
def exWorldReceipted : World :=
  { payments := [{ amount := 100 }], invoices := [exInvIssued],
    allocs := [⟨0, 0, 100⟩], receipts := [(0, { receipt_no := "SAMDA/RCT/000001" })] }

/-- The draft VAT invoice with the 15% profile frozen on it. -/
def exInvVatFrozen : Invoice :=
  { exInvVatDraft with tax_profile := some exProfile15 }

/-- Three allocation requests against `exWorldA`: 60.00 (accepted),
50.00 (rejected: only 40.00 of the payment remains), 40.00
(accepted). -/
def exRequests : List (Nat × Nat × ℚ) := [(0, 0, 60), (0, 0, 50), (0, 0, 40)]

/-! Rounding lemmas. -/

theorem isCent_iff {x : ℚ} : isCent x ↔ ∃ k : ℤ, x = (k : ℚ) / 100 := by
  unfold isCent
  constructor
  · intro h
    refine ⟨(x * 100).num, ?_⟩
    have hx : ((x * 100).num : ℚ) = x * 100 := (Rat.den_eq_one_iff (x * 100)).mp h
    rw [hx]
    ring
  · rintro ⟨k, rfl⟩
    have h100 : (k : ℚ) / 100 * 100 = (k : ℚ) := by ring
    rw [h100, Rat.den_intCast]

theorem isCent_zero : isCent 0 := isCent_iff.mpr ⟨0, by norm_num⟩

theorem isCent_add {x y : ℚ} (hx : isCent x) (hy : isCent y) : isCent (x + y) := by
  obtain ⟨a, rfl⟩ := isCent_iff.mp hx
  obtain ⟨b, rfl⟩ := isCent_iff.mp hy
  exact isCent_iff.mpr ⟨a + b, by push_cast; ring⟩

theorem isCent_sub {x y : ℚ} (hx : isCent x) (hy : isCent y) : isCent (x - y) := by
  obtain ⟨a, rfl⟩ := isCent_iff.mp hx
  obtain ⟨b, rfl⟩ := isCent_iff.mp hy
  exact isCent_iff.mpr ⟨a - b, by push_cast; ring⟩

theorem isCent_listSum {l : List ℚ} (h : ∀ x ∈ l, isCent x) : isCent l.sum := by
  induction l with
  | nil => exact isCent_zero
  | cons a t ih =>
    rw [List.sum_cons]
    exact isCent_add (h a (List.mem_cons_self a t)) (ih fun x hx => h x (List.mem_cons_of_mem a hx))

theorem roundHalfEven_intCast (k : ℤ) : roundHalfEven (k : ℚ) = k := by
  unfold roundHalfEven
  rw [Int.floor_intCast]
  norm_num

theorem quantize2_eq_self {x : ℚ} (h : isCent x) : quantize2 x = x := by
  obtain ⟨k, rfl⟩ := isCent_iff.mp h
  have h100 : (k : ℚ) / 100 * 100 = (k : ℚ) := by ring
  unfold quantize2
  rw [h100, roundHalfEven_intCast]

theorem isCent_quantize2 (x : ℚ) : isCent (quantize2 x) :=
  isCent_iff.mpr ⟨roundHalfEven (x * 100), rfl⟩

theorem quantize2_zero : quantize2 0 = 0 := quantize2_eq_self isCent_zero

/-! Structural lemmas about `recompute_totals`. -/

theorem recompute_status (db : List TaxProfile) (inv : Invoice) :
    (Invoice.recompute_totals db inv).status = inv.status := rfl

theorem recompute_lines (db : List TaxProfile) (inv : Invoice) :
    (Invoice.recompute_totals db inv).lines = inv.lines := rfl

theorem recompute_invoice_no (db : List TaxProfile) (inv : Invoice) :
    (Invoice.recompute_totals db inv).invoice_no = inv.invoice_no := rfl

theorem recompute_tax_profile (db : List TaxProfile) (inv : Invoice) :
    (Invoice.recompute_totals db inv).tax_profile = inv.tax_profile := rfl

theorem recompute_idem (db : List TaxProfile) (inv : Invoice) :
    Invoice.recompute_totals db (Invoice.recompute_totals db inv) =
      Invoice.recompute_totals db inv := rfl

theorem isCent_recompute_total (db : List TaxProfile) (inv : Invoice) :
    isCent (Invoice.recompute_totals db inv).total :=
  isCent_quantize2 _

/-! List helper lemmas. -/

theorem getD_set_self {α : Type} {l : List α} {i : Nat} {a d : α} (h : i < l.length) :
    (l.set i a).getD i d = a := by
  simp [List.getD_eq_getElem?_getD, List.getElem?_set_self h]

theorem getD_set_ne {α : Type} {l : List α} {i j : Nat} {a d : α} (h : i ≠ j) :
    (l.set i a).getD j d = l.getD j d := by
  simp [List.getD_eq_getElem?_getD, List.getElem?_set_ne h]

theorem getD_of_length_le {α : Type} {l : List α} {i : Nat} {d : α} (h : l.length ≤ i) :
    l.getD i d = d := by
  simp [List.getD_eq_getElem?_getD, List.getElem?_eq_none h]

theorem getD_mem_of_lt {α : Type} {l : List α} {i : Nat} {d : α} (h : i < l.length) :
    l.getD i d ∈ l := by
  rw [List.getD_eq_getElem?_getD, List.getElem?_eq_getElem h]
  exact List.getElem_mem h

theorem recompute_dInvoice_total (db : List TaxProfile) :
    (Invoice.recompute_totals db dInvoice).total = 0 := by
  show quantize2 (0 + 0 + 0 + 0) = 0
  rw [show (0 : ℚ) + 0 + 0 + 0 = 0 by norm_num]
  exact quantize2_zero

theorem sumAmounts_nil : sumAmounts [] = 0 := rfl

theorem sumAmounts_filter_append (l : List PaymentAllocation) (a : PaymentAllocation)
    (f : PaymentAllocation → Bool) :
    sumAmounts ((l ++ [a]).filter f) =
      sumAmounts (l.filter f) + (if f a then a.amount else 0) := by
  by_cases h : f a = true
  · simp [sumAmounts, List.filter_append, h]
  · simp only [Bool.not_eq_true] at h
    simp [sumAmounts, List.filter_append, h]

/-! Case analysis of `payment_allocate`. -/

theorem pa_not_valid {db : List TaxProfile} {w : World} {pid iid : Nat} {amount : ℚ}
    (h : formValid w pid iid amount = false) :
    payment_allocate db w pid iid amount = (w, false) := by
  simp [payment_allocate, h]

theorem pa_reject_remaining {db : List TaxProfile} {w : World} {pid iid : Nat} {amount : ℚ}
    (hv : formValid w pid iid amount = true)
    (h1 : (w.payment pid).amount - sumAmounts (w.allocsOfPayment pid) < amount) :
    payment_allocate db w pid iid amount = (w, false) := by
  simp [payment_allocate, hv, h1]

theorem pa_reject_balance {db : List TaxProfile} {w : World} {pid iid : Nat} {amount : ℚ}
    (hv : formValid w pid iid amount = true)
    (h1 : ¬ (w.payment pid).amount - sumAmounts (w.allocsOfPayment pid) < amount)
    (h2 : Invoice.balance_due (Invoice.recompute_totals db (w.invoice iid))
            (w.allocsOfInvoice iid) < amount) :
    payment_allocate db w pid iid amount =
      ({ w with invoices := w.invoices.set iid (Invoice.recompute_totals db (w.invoice iid)) },
       false) := by
  simp [payment_allocate, hv, h1, World.allocsOfInvoice] at h2 ⊢
  simp [h2]

theorem pa_accept {db : List TaxProfile} {w : World} {pid iid : Nat} {amount : ℚ}
    (hv : formValid w pid iid amount = true)
    (h1 : ¬ (w.payment pid).amount - sumAmounts (w.allocsOfPayment pid) < amount)
    (h2 : ¬ Invoice.balance_due (Invoice.recompute_totals db (w.invoice iid))
            (w.allocsOfInvoice iid) < amount) :
    payment_allocate db w pid iid amount =
      ({ w with invoices := w.invoices.set iid (Invoice.recompute_totals db (w.invoice iid)),
                allocs := w.allocs ++ [⟨pid, iid, amount⟩] }, true) := by
  simp [payment_allocate, hv, h1, World.allocsOfInvoice] at h2 ⊢
  simp [h2]

theorem formValid_spec {w : World} {pid iid : Nat} {amount : ℚ}
    (h : formValid w pid iid amount = true) :
    pid < w.payments.length ∧ iid < w.invoices.length ∧
      (1 : ℚ)/100 ≤ amount ∧ isCent amount := by
  unfold formValid at h
  simp only [Bool.and_eq_true, decide_eq_true_eq] at h
  exact ⟨h.1.1.1.1.1, h.1.1.1.1.2, h.1.1.1.2, h.1.1.2⟩

theorem isCent_sumAmounts {l : List PaymentAllocation} (h : ∀ a ∈ l, isCent a.amount) :
    isCent (sumAmounts l) := by
  unfold sumAmounts
  refine isCent_listSum ?_
  intro x hx
  obtain ⟨a, ha, rfl⟩ := List.mem_map.mp hx
  exact h a ha

theorem balance_due_eq {inv : Invoice} {allocs : List PaymentAllocation}
    (ht : isCent inv.total) (ha : ∀ a ∈ allocs, isCent a.amount) :
    Invoice.balance_due inv allocs = inv.total - sumAmounts allocs := by
  unfold Invoice.balance_due Invoice.amount_paid
  exact quantize2_eq_self (isCent_sub ht (isCent_sumAmounts ha))

/-- Recomputing-and-saving one invoice preserves the allocator
invariant. -/
theorem allocInvariant_set_recompute {db : List TaxProfile} {w : World} {iid : Nat}
    (hlt : iid < w.invoices.length) (h : AllocInvariant db w) :
    AllocInvariant db
      { w with invoices := w.invoices.set iid (Invoice.recompute_totals db (w.invoice iid)) } := by
  obtain ⟨hbound, hpay, hinv, hrec⟩ := h
  refine ⟨?_, ?_, ?_, ?_⟩
  · intro a ha
    have := hbound a ha
    simpa [List.length_set] using this
  · exact hpay
  · intro j
    show sumInvAlloc w j ≤
      ((w.invoices.set iid (Invoice.recompute_totals db (w.invoice iid))).getD j dInvoice).total
    by_cases hj : j = iid
    · subst hj
      rw [getD_set_self hlt]
      exact hrec j
    · rw [getD_set_ne (fun hh => hj hh.symm)]
      exact hinv j
  · intro j
    show sumInvAlloc w j ≤
      (Invoice.recompute_totals db
        ((w.invoices.set iid (Invoice.recompute_totals db (w.invoice iid))).getD j dInvoice)).total
    by_cases hj : j = iid
    · subst hj
      rw [getD_set_self hlt, recompute_idem]
      exact hrec j
    · rw [getD_set_ne (fun hh => hj hh.symm)]
      exact hrec j

/-- One `payment_allocate` request — accepted or rejected — preserves
the allocator invariant. -/
theorem allocInvariant_preserved {db : List TaxProfile} {w : World} (pid iid : Nat) (amount : ℚ)
    (h : AllocInvariant db w) :
    AllocInvariant db (payment_allocate db w pid iid amount).1 := by
  cases hv : formValid w pid iid amount with
  | false =>
    rw [pa_not_valid hv]
    exact h
  | true =>
    obtain ⟨hpidlt, hiidlt, hpos, hcent⟩ := formValid_spec hv
    by_cases h1 : (w.payment pid).amount - sumAmounts (w.allocsOfPayment pid) < amount
    · rw [pa_reject_remaining hv h1]
      exact h
    · by_cases h2 : Invoice.balance_due (Invoice.recompute_totals db (w.invoice iid))
          (w.allocsOfInvoice iid) < amount
      · rw [pa_reject_balance hv h1 h2]
        exact allocInvariant_set_recompute hiidlt h
      · rw [pa_accept hv h1 h2]
        obtain ⟨hbound, hpay, hinv, hrec⟩ := h
        have hbal : Invoice.balance_due (Invoice.recompute_totals db (w.invoice iid))
            (w.allocsOfInvoice iid) =
            (Invoice.recompute_totals db (w.invoice iid)).total -
              sumAmounts (w.allocsOfInvoice iid) := by
          refine balance_due_eq (isCent_recompute_total db _) ?_
          intro a ha
          exact (hbound a (List.mem_of_mem_filter ha)).2.2
        rw [hbal] at h2
        push_neg at h1 h2
        refine ⟨?_, ?_, ?_, ?_⟩
        · intro a ha
          rcases List.mem_append.mp ha with hmem | hmem
          · have hb := hbound a hmem
            simpa [List.length_set] using hb
          · rcases List.mem_singleton.mp hmem with rfl
            simpa [List.length_set] using ⟨hpidlt, hiidlt, hcent⟩
        · intro p
          have key : sumAmounts ((w.allocs ++
              [({ payment := pid, invoice := iid, amount := amount } : PaymentAllocation)]).filter
                (fun a => a.payment == p)) ≤ (w.payment p).amount := by
            rw [sumAmounts_filter_append]
            by_cases hp : p = pid
            · subst hp
              simp only [beq_self_eq_true, if_true]
              have key2 : sumAmounts (w.allocsOfPayment p) + amount ≤ (w.payment p).amount := by
                linarith
              exact key2
            · have hne : (pid == p) = false := beq_eq_false_iff_ne.mpr (fun hh => hp hh.symm)
              simp only [hne, Bool.false_eq_true, if_false, add_zero]
              exact hpay p
          exact key
        · intro j
          have key : sumAmounts ((w.allocs ++
              [({ payment := pid, invoice := iid, amount := amount } : PaymentAllocation)]).filter
                (fun a => a.invoice == j)) ≤
              ((w.invoices.set iid (Invoice.recompute_totals db (w.invoice iid))).getD j
                dInvoice).total := by
            rw [sumAmounts_filter_append]
            by_cases hj : j = iid
            · subst hj
              rw [getD_set_self hiidlt]
              simp only [beq_self_eq_true, if_true]
              have key2 : sumAmounts (w.allocsOfInvoice j) + amount ≤
                  (Invoice.recompute_totals db (w.invoice j)).total := by
                linarith
              exact key2
            · have hne : (iid == j) = false := beq_eq_false_iff_ne.mpr (Ne.symm hj)
              simp only [hne, Bool.false_eq_true, if_false, add_zero]
              rw [getD_set_ne (Ne.symm hj)]
              exact hinv j
          exact key
        · intro j
          have key : sumAmounts ((w.allocs ++
              [({ payment := pid, invoice := iid, amount := amount } : PaymentAllocation)]).filter
                (fun a => a.invoice == j)) ≤
              (Invoice.recompute_totals db
                ((w.invoices.set iid (Invoice.recompute_totals db (w.invoice iid))).getD j
                  dInvoice)).total := by
            rw [sumAmounts_filter_append]
            by_cases hj : j = iid
            · subst hj
              rw [getD_set_self hiidlt, recompute_idem]
              simp only [beq_self_eq_true, if_true]
              have key2 : sumAmounts (w.allocsOfInvoice j) + amount ≤
                  (Invoice.recompute_totals db (w.invoice j)).total := by
                linarith
              exact key2
            · have hne : (iid == j) = false := beq_eq_false_iff_ne.mpr (Ne.symm hj)
              simp only [hne, Bool.false_eq_true, if_false, add_zero]
              rw [getD_set_ne (Ne.symm hj)]
              exact hrec j
          exact key

theorem allocInvariant_of_initial {db : List TaxProfile} {w : World} (h : InitialOk db w) :
    AllocInvariant db w := by
  obtain ⟨hz, hp, hi⟩ := h
  have hzero : ∀ f : PaymentAllocation → Bool, sumAmounts (w.allocs.filter f) = 0 := by
    intro f
    rw [hz]
    rfl
  refine ⟨?_, ?_, ?_, ?_⟩
  · intro a ha
    rw [hz] at ha
    cases ha
  · intro pid
    have h0 : sumPayAlloc w pid = 0 := hzero _
    rw [h0]
    by_cases hlt : pid < w.payments.length
    · exact hp _ (getD_mem_of_lt hlt)
    · unfold World.payment
      rw [getD_of_length_le (Nat.le_of_not_lt hlt)]
      exact le_of_eq rfl
  · intro iid
    have h0 : sumInvAlloc w iid = 0 := hzero _
    rw [h0]
    by_cases hlt : iid < w.invoices.length
    · exact (hi _ (getD_mem_of_lt hlt)).1
    · unfold World.invoice
      rw [getD_of_length_le (Nat.le_of_not_lt hlt)]
      exact le_of_eq rfl
  · intro iid
    have h0 : sumInvAlloc w iid = 0 := hzero _
    rw [h0]
    by_cases hlt : iid < w.invoices.length
    · exact (hi _ (getD_mem_of_lt hlt)).2
    · unfold World.invoice
      rw [getD_of_length_le (Nat.le_of_not_lt hlt)]
      exact le_of_eq (recompute_dInvoice_total db).symm

theorem allocInvariant_runAllocs {db : List TaxProfile} {w : World}
    (rs : List (Nat × Nat × ℚ)) (h : AllocInvariant db w) :
    AllocInvariant db (runAllocs db w rs) := by
  induction rs generalizing w with
  | nil => exact h
  | cons r rs ih => exact ih (allocInvariant_preserved r.1 r.2.1 r.2.2 h)

/-! Sequence counter lemmas. -/

theorem nextResult_num (db : List DocumentSequence) (key : String) :
    (DocumentSequence.nextResult db key).1 = storedNext db key := by
  unfold DocumentSequence.nextResult storedNext
  cases hf : findSeq db key <;> simp [hf]

theorem findSeq_map_incr_self (db : List DocumentSequence) (key : String) :
    findSeq (db.map (fun t => if t.key == key
        then { t with next_number := t.next_number + 1 } else t)) key =
      (findSeq db key).map (fun s => { s with next_number := s.next_number + 1 }) := by
  unfold findSeq
  induction db with
  | nil => rfl
  | cons t d ih =>
    cases hck : (t.key == key) with
    | true =>
      have heq : t.key = key := beq_iff_eq.mp hck
      simp [List.find?_cons, heq]
    | false =>
      simp only [List.map_cons, List.find?_cons, hck, Bool.false_eq_true, if_false]
      exact ih

theorem findSeq_map_incr_other (db : List DocumentSequence) (key k' : String) (h : k' ≠ key) :
    findSeq (db.map (fun t => if t.key == key
        then { t with next_number := t.next_number + 1 } else t)) k' = findSeq db k' := by
  unfold findSeq
  induction db with
  | nil => rfl
  | cons t d ih =>
    cases hck : (t.key == key) with
    | true =>
      have heq : t.key = key := beq_iff_eq.mp hck
      have hb : (t.key == k') = false :=
        beq_eq_false_iff_ne.mpr (by rw [heq]; exact Ne.symm h)
      simp only [List.map_cons, List.find?_cons, hck, if_true]
      have hb' : (({ t with next_number := t.next_number + 1 } :
          DocumentSequence).key == k') = false := hb
      simp only [hb', hb, Bool.false_eq_true]
      exact ih
    | false =>
      simp only [List.map_cons, List.find?_cons, hck, Bool.false_eq_true, if_false]
      cases hck' : (t.key == k') with
      | true => rfl
      | false => exact ih

theorem findSeq_nextResult_self (db : List DocumentSequence) (key : String) :
    findSeq (DocumentSequence.nextResult db key).2.2 key =
      match findSeq db key with
      | none => some ⟨key, "SAMDA/", 2⟩
      | some s => some { s with next_number := s.next_number + 1 } := by
  unfold DocumentSequence.nextResult
  cases hf : findSeq db key with
  | none =>
    unfold findSeq at hf ⊢
    rw [List.find?_append, hf]
    simp
  | some s =>
    rw [findSeq_map_incr_self, hf]
    rfl

theorem findSeq_nextResult_other (db : List DocumentSequence) (key k' : String) (h : k' ≠ key) :
    findSeq (DocumentSequence.nextResult db key).2.2 k' = findSeq db k' := by
  unfold DocumentSequence.nextResult
  cases hf : findSeq db key with
  | none =>
    unfold findSeq
    rw [List.find?_append]
    have hb : ((⟨key, "SAMDA/", 2⟩ : DocumentSequence).key == k') = false :=
      beq_eq_false_iff_ne.mpr (Ne.symm h)
    simp [hb]
  | some s =>
    rw [findSeq_map_incr_other db key k' h]

theorem storedNext_nextResult_self (db : List DocumentSequence) (key : String) :
    storedNext (DocumentSequence.nextResult db key).2.2 key = storedNext db key + 1 := by
  unfold storedNext
  rw [findSeq_nextResult_self]
  cases hf : findSeq db key <;> simp [hf]

theorem storedNext_nextResult_mono (db : List DocumentSequence) (key k' : String) :
    storedNext db k' ≤ storedNext (DocumentSequence.nextResult db key).2.2 k' := by
  by_cases hk : k' = key
  · subst hk
    rw [storedNext_nextResult_self]
    omega
  · unfold storedNext
    rw [findSeq_nextResult_other db key k' hk]

theorem seqRun_numbers (key : String) :
    ∀ (m : Nat) (db : List DocumentSequence),
      (seqRun db key m).1 = List.range' (storedNext db key) m := by
  intro m
  induction m with
  | zero => intro db; rfl
  | succ n ih =>
    intro db
    show (DocumentSequence.nextResult db key).1 ::
        (seqRun (DocumentSequence.nextResult db key).2.2 key n).1 = _
    rw [nextResult_num, ih, storedNext_nextResult_self]
    rfl

/-! Issuance helper lemmas. -/

theorem assign_tax_profile (seqs : List DocumentSequence) (inv : Invoice) :
    (Invoice.assign_number_if_needed seqs inv).1.tax_profile = inv.tax_profile := by
  unfold Invoice.assign_number_if_needed
  split_ifs <;> rfl

theorem assign_status (seqs : List DocumentSequence) (inv : Invoice) :
    (Invoice.assign_number_if_needed seqs inv).1.status = inv.status := by
  unfold Invoice.assign_number_if_needed
  split_ifs <;> rfl

theorem issue_tax_profile (db : List TaxProfile) (seqs : List DocumentSequence) (inv : Invoice) :
    (issue_invoice db seqs inv).1.tax_profile = inv.tax_profile := by
  unfold issue_invoice
  by_cases h : inv.status ≠ Status.DRAFT
  · rw [if_pos h]
  · rw [if_neg h]
    show (Invoice.recompute_totals db (Invoice.assign_number_if_needed seqs inv).1).tax_profile =
      inv.tax_profile
    rw [recompute_tax_profile]
    exact assign_tax_profile seqs inv

theorem resolvedProfile_of_some {inv : Invoice} {tp : TaxProfile}
    (h : inv.tax_profile = some tp) :
    ∀ db : List TaxProfile, Invoice.resolvedProfile db inv = some tp := by
  intro db
  unfold Invoice.resolvedProfile
  rw [h]

/-! Active-profile selection lemmas. -/

theorem pickLater_cases (acc : Option TaxProfile) (p : TaxProfile) :
    pickLater acc p = some p ∨
      (∃ a, acc = some a ∧ pickLater acc p = some a ∧
        p.effective_from ≤ a.effective_from) := by
  cases acc with
  | none => exact Or.inl rfl
  | some a =>
    by_cases h : a.effective_from < p.effective_from
    · exact Or.inl (by simp [pickLater, h])
    · exact Or.inr ⟨a, rfl, by simp [pickLater, h], le_of_not_lt h⟩

theorem pickLater_ge_acc {acc : Option TaxProfile} {p a q : TaxProfile}
    (hacc : acc = some a) (h : pickLater acc p = some q) :
    a.effective_from ≤ q.effective_from := by
  subst hacc
  simp only [pickLater] at h
  by_cases hlt : a.effective_from < p.effective_from
  · rw [if_pos hlt] at h
    cases h
    exact le_of_lt hlt
  · rw [if_neg hlt] at h
    cases h
    exact le_refl _

theorem foldl_pickLater_ge_acc :
    ∀ (l : List TaxProfile) (acc : Option TaxProfile) (q tp : TaxProfile),
      l.foldl pickLater acc = some tp → acc = some q →
      q.effective_from ≤ tp.effective_from := by
  intro l
  induction l with
  | nil =>
    intro acc q tp h hacc
    rw [hacc] at h
    cases h
    exact le_refl _
  | cons p l ih =>
    intro acc q tp h hacc
    rw [List.foldl_cons] at h
    rcases pickLater_cases acc p with hc | ⟨a, haeq, hc, hge⟩
    · calc q.effective_from ≤ p.effective_from := by
            subst hacc
            simp only [pickLater] at hc
            by_cases hlt : q.effective_from < p.effective_from
            · exact le_of_lt hlt
            · rw [if_neg hlt] at hc
              cases hc
              exact le_refl _
        _ ≤ tp.effective_from := ih _ _ _ h hc
    · have haq : a = q := by
        rw [hacc] at haeq
        cases haeq
        rfl
      subst haq
      exact ih _ _ _ h hc

theorem foldl_pickLater_mem :
    ∀ (l : List TaxProfile) (acc : Option TaxProfile) (tp : TaxProfile),
      l.foldl pickLater acc = some tp → acc = some tp ∨ tp ∈ l := by
  intro l
  induction l with
  | nil =>
    intro acc tp h
    exact Or.inl h
  | cons p l ih =>
    intro acc tp h
    rw [List.foldl_cons] at h
    rcases ih _ _ h with hc | hmem
    · rcases pickLater_cases acc p with hp | ⟨a, haeq, ha, _⟩
      · rw [hp] at hc
        cases hc
        exact Or.inr (List.mem_cons_self _ _)
      · rw [ha] at hc
        cases hc
        exact Or.inl haeq
    · exact Or.inr (List.mem_cons_of_mem _ hmem)

theorem foldl_pickLater_ge_elem :
    ∀ (l : List TaxProfile) (acc : Option TaxProfile) (tp : TaxProfile),
      l.foldl pickLater acc = some tp →
      ∀ q ∈ l, q.effective_from ≤ tp.effective_from := by
  intro l
  induction l with
  | nil =>
    intro acc tp _ q hq
    cases hq
  | cons p l ih =>
    intro acc tp h q hq
    rw [List.foldl_cons] at h
    rcases List.mem_cons.mp hq with rfl | hmem
    · rcases pickLater_cases acc q with hc | ⟨a, _, hc, hge⟩
      · exact foldl_pickLater_ge_acc l _ _ _ h hc
      · exact le_trans hge (foldl_pickLater_ge_acc l _ _ _ h hc)
    · exact ih _ _ h q hmem

theorem activeProfileFirst_none {db : List TaxProfile}
    (h : ∀ p ∈ db, p.is_active = false) : activeProfileFirst db = none := by
  unfold activeProfileFirst
  have hf : db.filter (fun p => p.is_active) = [] := by
    rw [List.filter_eq_nil_iff]
    intro a ha
    simp [h a ha]
  rw [hf]
  rfl

theorem activeProfileFirst_spec {db : List TaxProfile} {tp : TaxProfile}
    (h : activeProfileFirst db = some tp) :
    tp ∈ db ∧ tp.is_active = true ∧
      ∀ q ∈ db, q.is_active = true → q.effective_from ≤ tp.effective_from := by
  unfold activeProfileFirst at h
  have hmem : tp ∈ db.filter (fun p => p.is_active) := by
    rcases foldl_pickLater_mem _ _ _ h with hc | hmem
    · cases hc
    · exact hmem
  have hm := List.mem_filter.mp hmem
  refine ⟨hm.1, hm.2, ?_⟩
  intro q hq hact
  have hqf : q ∈ db.filter (fun p => p.is_active) :=
    List.mem_filter.mpr ⟨hq, hact⟩
  exact foldl_pickLater_ge_elem _ _ _ h q hqf

/-! Receipt helper lemmas. -/

theorem settleFold_receipts (db : List TaxProfile) (l : List PaymentAllocation) :
    ∀ w : World,
      (l.foldl (fun acc a => settleInvoice db acc a.invoice) w).receipts = w.receipts := by
  induction l with
  | nil => intro w; rfl
  | cons a t ih =>
    intro w
    rw [List.foldl_cons]
    rw [ih (settleInvoice db w a.invoice)]
    rfl

theorem issue_invoice_non_draft (db : List TaxProfile) (seqs : List DocumentSequence)
    (inv : Invoice) (h : inv.status ≠ Status.DRAFT) :
    issue_invoice db seqs inv = (inv, seqs) := by
  unfold issue_invoice
  rw [if_pos h]

theorem issue_invoice_draft (db : List TaxProfile) (seqs : List DocumentSequence)
    (inv : Invoice) (hd : inv.status = Status.DRAFT) :
    issue_invoice db seqs inv =
      ({ Invoice.recompute_totals db (Invoice.assign_number_if_needed seqs inv).1 with
         status := Status.ISSUED }, (Invoice.assign_number_if_needed seqs inv).2) := by
  have hnd : ¬ inv.status ≠ Status.DRAFT := by
    rw [hd]
    intro hh
    exact hh rfl
  unfold issue_invoice
  rw [if_neg hnd]

theorem assign_of_nonempty (seqs : List DocumentSequence) (inv : Invoice)
    (h : inv.invoice_no ≠ "") :
    Invoice.assign_number_if_needed seqs inv = (inv, seqs) := by
  unfold Invoice.assign_number_if_needed
  rw [if_pos h]

theorem assign_of_empty_vat (seqs : List DocumentSequence) (inv : Invoice)
    (h : inv.invoice_no = "") (ht : inv.invoice_type = InvoiceType.VAT) :
    Invoice.assign_number_if_needed seqs inv =
      ({ inv with invoice_no := (DocumentSequence.next seqs "INV_VAT").1 },
       (DocumentSequence.next seqs "INV_VAT").2) := by
  unfold Invoice.assign_number_if_needed
  rw [if_neg (by rw [h]; simp), if_pos ht]

theorem assign_of_empty_nonvat (seqs : List DocumentSequence) (inv : Invoice)
    (h : inv.invoice_no = "") (ht : ¬ inv.invoice_type = InvoiceType.VAT) :
    Invoice.assign_number_if_needed seqs inv =
      ({ inv with invoice_no := (DocumentSequence.next seqs "INV_NONVAT").1 },
       (DocumentSequence.next seqs "INV_NONVAT").2) := by
  unfold Invoice.assign_number_if_needed
  rw [if_neg (by rw [h]; simp), if_neg ht]

/-! The claims. -/

/-- C1 counterexample: a fully-covering allocation is accepted, after
which the invoice's balance due is `0` but its status is still ISSUED,
not PAID — the view never writes a status together with the
allocation, so the claimed atomic allocation+status invariant fails. -/
theorem C1_counterexample :
    (payment_allocate [] exWorldA 0 0 100).2 = true ∧
    Invoice.balance_due ((payment_allocate [] exWorldA 0 0 100).1.invoice 0)
      ((payment_allocate [] exWorldA 0 0 100).1.allocsOfInvoice 0) ≤ 0 ∧
    ((payment_allocate [] exWorldA 0 0 100).1.invoice 0).status = Status.ISSUED ∧
    ((payment_allocate [] exWorldA 0 0 100).1.invoice 0).status ≠ Status.PAID :=
  ⟨by decide, by decide, by decide, by decide⟩

/-- C1 (amended): a successful allocation persists exactly the new
PaymentAllocation row, but no status update accompanies it — every
invoice's status after the operation equals its status before; the
PAID/PART_PAID recomputation happens only in
`create_receipt_for_payment`. -/
theorem C1_allocation_no_status_update (db : List TaxProfile) (w : World) (pid iid : Nat)
    (amount : ℚ) (h : (payment_allocate db w pid iid amount).2 = true) :
    (payment_allocate db w pid iid amount).1.allocs = w.allocs ++ [⟨pid, iid, amount⟩] ∧
    ∀ j, ((payment_allocate db w pid iid amount).1.invoice j).status = (w.invoice j).status := by
  cases hv : formValid w pid iid amount with
  | false =>
    rw [pa_not_valid hv] at h
    cases h
  | true =>
    by_cases h1 : (w.payment pid).amount - sumAmounts (w.allocsOfPayment pid) < amount
    · rw [pa_reject_remaining hv h1] at h
      cases h
    · by_cases h2 : Invoice.balance_due (Invoice.recompute_totals db (w.invoice iid))
          (w.allocsOfInvoice iid) < amount
      · rw [pa_reject_balance hv h1 h2] at h
        cases h
      · rw [pa_accept hv h1 h2]
        refine ⟨rfl, ?_⟩
        intro j
        have hiidlt := (formValid_spec hv).2.1
        by_cases hj : j = iid
        · subst hj
          have key : ((w.invoices.set j (Invoice.recompute_totals db (w.invoice j))).getD j
              dInvoice).status = (w.invoice j).status := by
            rw [getD_set_self hiidlt]
            exact recompute_status db _
          exact key
        · have key : ((w.invoices.set iid (Invoice.recompute_totals db (w.invoice iid))).getD j
              dInvoice).status = (w.invoice j).status := by
            rw [getD_set_ne (Ne.symm hj)]
            rfl
          exact key

/-- C1 (amended) witness: the accepted allocation of `exWorldA`
appends the row and leaves the invoice's status where it was. -/
theorem C1_allocation_no_status_update_witness :
    (payment_allocate [] exWorldA 0 0 100).1.allocs = exWorldA.allocs ++ [⟨0, 0, 100⟩] ∧
    ((payment_allocate [] exWorldA 0 0 100).1.invoice 0).status = (exWorldA.invoice 0).status :=
  ⟨(C1_allocation_no_status_update [] exWorldA 0 0 100 (by decide)).1,
   (C1_allocation_no_status_update [] exWorldA 0 0 100 (by decide)).2 0⟩

/-- C2 counterexample: a VAT invoice issued while the 15% profile is
active (nothing freezes a profile on it) recomputes to 20% VAT once
the active profile changes — the profile chosen at issuance is NOT
permanent. -/
theorem C2_counterexample :
    (issue_invoice [exProfile15] [] exInvVatDraft).1.status = Status.ISSUED ∧
    (issue_invoice [exProfile15] [] exInvVatDraft).1.tax_profile = none ∧
    (issue_invoice [exProfile15] [] exInvVatDraft).1.vat = 15 ∧
    (Invoice.recompute_totals [exProfile20]
      (issue_invoice [exProfile15] [] exInvVatDraft).1).vat = 20 ∧
    (Invoice.recompute_totals [exProfile20]
        (issue_invoice [exProfile15] [] exInvVatDraft).1).vat ≠
      (issue_invoice [exProfile15] [] exInvVatDraft).1.vat :=
  ⟨by decide, by decide, by decide, by decide, by decide⟩

/-- C2 (amended): `recompute_totals` resolves the profile from the
invoice's stored `tax_profile` field, not from its status — a stored
profile makes the totals independent of the active-profile set, the
status is ignored entirely, and `issue_invoice` never stores a
profile (it preserves `tax_profile`), so only invoices that carry a
profile are shielded from later profile changes. -/
theorem C2_profile_resolution (db db' : List TaxProfile) (seqs : List DocumentSequence)
    (inv : Invoice) :
    ((issue_invoice db seqs inv).1.tax_profile = inv.tax_profile) ∧
    (∀ s, Invoice.recompute_totals db { inv with status := s } =
      { Invoice.recompute_totals db inv with status := s }) ∧
    (∀ tp, inv.tax_profile = some tp →
      Invoice.recompute_totals db inv = Invoice.recompute_totals db' inv) := by
  refine ⟨issue_tax_profile db seqs inv, ?_, ?_⟩
  · intro s
    rfl
  · intro tp h
    unfold Invoice.recompute_totals
    rw [resolvedProfile_of_some h db, resolvedProfile_of_some h db']

/-- C2 (amended) witness: with the 15% profile frozen on the invoice,
recomputation under the 20% database changes nothing. -/
theorem C2_profile_resolution_witness :
    (issue_invoice [exProfile15] [] exInvVatDraft).1.tax_profile = exInvVatDraft.tax_profile ∧
    Invoice.recompute_totals [exProfile15] { exInvVatFrozen with status := Status.ISSUED } =
      { Invoice.recompute_totals [exProfile15] exInvVatFrozen with status := Status.ISSUED } ∧
    Invoice.recompute_totals [exProfile15] exInvVatFrozen =
      Invoice.recompute_totals [exProfile20] exInvVatFrozen :=
  ⟨(C2_profile_resolution [exProfile15] [exProfile20] [] exInvVatDraft).1,
   (C2_profile_resolution [exProfile15] [exProfile20] [] exInvVatFrozen).2.1 Status.ISSUED,
   (C2_profile_resolution [exProfile15] [exProfile20] [] exInvVatFrozen).2.2 exProfile15 rfl⟩

/-- C3 counterexample: two lines `0.10 × 0.25`; per-line rounding
yields subtotal `0.04` while the claimed round-once-at-the-end rule
yields `0.05`. -/
theorem C3_counterexample :
    (Invoice.recompute_totals [] exInvQuarterLines).subtotal = 4/100 ∧
    specSubtotal exInvQuarterLines = 5/100 ∧
    (Invoice.recompute_totals [] exInvQuarterLines).subtotal ≠
      specSubtotal exInvQuarterLines :=
  ⟨by decide, by decide, by decide⟩

/-- C3 (amended): the subtotal is `round(sum of round(qty*unit_price,
2), 2)` — each line IS rounded to 2 decimal places independently
before summation (`InvoiceLine.line_total` quantizes), and the sum of
the rounded line totals is quantized once more. -/
theorem C3_subtotal_per_line_rounding (db : List TaxProfile) (inv : Invoice) :
    (Invoice.recompute_totals db inv).subtotal =
      quantize2 ((inv.lines.map (fun ln => quantize2 (ln.qty * ln.unit_price))).sum) := rfl

/-- C4: starting from a sane pre-allocation state, after any sequence
of allocation requests processed by the view, the allocations of each
payment sum to at most its amount and the allocations of each invoice
sum to at most its (current) total. -/
theorem C4_allocation_sums_bounded (db : List TaxProfile) (w : World)
    (rs : List (Nat × Nat × ℚ)) (h : InitialOk db w) :
    (∀ pid, sumPayAlloc (runAllocs db w rs) pid ≤ ((runAllocs db w rs).payment pid).amount) ∧
    (∀ iid, sumInvAlloc (runAllocs db w rs) iid ≤ ((runAllocs db w rs).invoice iid).total) := by
  have hi := allocInvariant_runAllocs rs (allocInvariant_of_initial h)
  exact ⟨hi.2.1, hi.2.2.1⟩

/-- C4 witness: the concrete 60/50/40 request run (60 and 40 accepted,
50 rejected) respects both bounds. -/
theorem C4_allocation_sums_bounded_witness :
    InitialOk [] exWorldA ∧
    (runAllocs [] exWorldA exRequests).allocs = [⟨0, 0, 60⟩, ⟨0, 0, 40⟩] ∧
    sumPayAlloc (runAllocs [] exWorldA exRequests) 0 ≤
      ((runAllocs [] exWorldA exRequests).payment 0).amount ∧
    sumInvAlloc (runAllocs [] exWorldA exRequests) 0 ≤
      ((runAllocs [] exWorldA exRequests).invoice 0).total :=
  ⟨by decide, by decide,
   (C4_allocation_sums_bounded [] exWorldA exRequests (by decide)).1 0,
   (C4_allocation_sums_bounded [] exWorldA exRequests (by decide)).2 0⟩

/-- C5 counterexample: an allocation rejected by the balance-due guard
nevertheless recomputes and saves the invoice's cached totals — here
the stale cached total `0` becomes `100` although the request was
rejected, so "no state mutated" fails. -/
theorem C5_counterexample :
    (payment_allocate [] exWorldStale 0 0 200).2 = false ∧
    (exWorldStale.invoice 0).total = 0 ∧
    ((payment_allocate [] exWorldStale 0 0 200).1.invoice 0).total = 100 ∧
    ((payment_allocate [] exWorldStale 0 0 200).1.invoice 0).total ≠
      (exWorldStale.invoice 0).total :=
  ⟨by decide, by decide, by decide, by decide⟩

/-- C5 (amended): a rejected allocation creates no allocation row and
touches neither payments nor receipts, and every invoice keeps its
status and lines; a rejection at the remaining-payment guard (or an
invalid form) leaves the world exactly unchanged, while a rejection at
the balance-due guard leaves at most the recomputed-and-saved cached
totals of the target invoice behind. -/
theorem C5_rejection_mutates_only_cached_totals (db : List TaxProfile) (w : World)
    (pid iid : Nat) (amount : ℚ)
    (h : (payment_allocate db w pid iid amount).2 = false) :
    (payment_allocate db w pid iid amount).1.allocs = w.allocs ∧
    (payment_allocate db w pid iid amount).1.payments = w.payments ∧
    (payment_allocate db w pid iid amount).1.receipts = w.receipts ∧
    (∀ j, ((payment_allocate db w pid iid amount).1.invoice j).status = (w.invoice j).status ∧
      ((payment_allocate db w pid iid amount).1.invoice j).lines = (w.invoice j).lines) ∧
    ((payment_allocate db w pid iid amount).1 = w ∨
      (payment_allocate db w pid iid amount).1 =
        { w with invoices := w.invoices.set iid (Invoice.recompute_totals db (w.invoice iid)) }) := by
  cases hv : formValid w pid iid amount with
  | false =>
    rw [pa_not_valid hv]
    exact ⟨rfl, rfl, rfl, fun j => ⟨rfl, rfl⟩, Or.inl rfl⟩
  | true =>
    by_cases h1 : (w.payment pid).amount - sumAmounts (w.allocsOfPayment pid) < amount
    · rw [pa_reject_remaining hv h1]
      exact ⟨rfl, rfl, rfl, fun j => ⟨rfl, rfl⟩, Or.inl rfl⟩
    · by_cases h2 : Invoice.balance_due (Invoice.recompute_totals db (w.invoice iid))
          (w.allocsOfInvoice iid) < amount
      · rw [pa_reject_balance hv h1 h2]
        have hiidlt := (formValid_spec hv).2.1
        refine ⟨rfl, rfl, rfl, ?_, Or.inr rfl⟩
        intro j
        by_cases hj : j = iid
        · subst hj
          constructor
          · have key : ((w.invoices.set j (Invoice.recompute_totals db (w.invoice j))).getD j
                dInvoice).status = (w.invoice j).status := by
              rw [getD_set_self hiidlt]
              exact recompute_status db _
            exact key
          · have key : ((w.invoices.set j (Invoice.recompute_totals db (w.invoice j))).getD j
                dInvoice).lines = (w.invoice j).lines := by
              rw [getD_set_self hiidlt]
              exact recompute_lines db _
            exact key
        · constructor
          · have key : ((w.invoices.set iid (Invoice.recompute_totals db (w.invoice iid))).getD j
                dInvoice).status = (w.invoice j).status := by
              rw [getD_set_ne (Ne.symm hj)]
              rfl
            exact key
          · have key : ((w.invoices.set iid (Invoice.recompute_totals db (w.invoice iid))).getD j
                dInvoice).lines = (w.invoice j).lines := by
              rw [getD_set_ne (Ne.symm hj)]
              rfl
            exact key
      · rw [pa_accept hv h1 h2] at h
        cases h

/-- C5 (amended) witness at the concrete rejected request. -/
theorem C5_rejection_mutates_only_cached_totals_witness :
    (payment_allocate [] exWorldStale 0 0 200).1.allocs = exWorldStale.allocs ∧
    ((payment_allocate [] exWorldStale 0 0 200).1.invoice 0).status =
      (exWorldStale.invoice 0).status ∧
    ((payment_allocate [] exWorldStale 0 0 200).1 = exWorldStale ∨
      (payment_allocate [] exWorldStale 0 0 200).1 =
        { exWorldStale with invoices := (exWorldStale.invoices.set 0
            (Invoice.recompute_totals [] (exWorldStale.invoice 0))) }) :=
  ⟨(C5_rejection_mutates_only_cached_totals [] exWorldStale 0 0 200 (by decide)).1,
   ((C5_rejection_mutates_only_cached_totals [] exWorldStale 0 0 200 (by decide)).2.2.2.1 0).1,
   (C5_rejection_mutates_only_cached_totals [] exWorldStale 0 0 200 (by decide)).2.2.2.2⟩

/-- C6: the sequence allocator creates a missing counter with
`next_number = 1`, returns the prefix followed by the current number
zero-padded to 6 digits, persists `next_number + 1`; the stored
counter of every key never decreases across a call, and the integers
returned by successive calls on one key are pairwise strictly
increasing (hence pairwise distinct). -/
theorem C6_sequence_allocator (seqs : List DocumentSequence) (key : String) (m : Nat) :
    (findSeq seqs key = none →
      DocumentSequence.nextResult seqs key =
        (1, "SAMDA/" ++ pad6 1, seqs ++ [⟨key, "SAMDA/", 2⟩])) ∧
    (∀ s, findSeq seqs key = some s →
      DocumentSequence.nextResult seqs key =
        (s.next_number, s.pfx ++ pad6 s.next_number,
          seqs.map (fun t => if t.key == key
            then { t with next_number := t.next_number + 1 } else t))) ∧
    storedNext (DocumentSequence.nextResult seqs key).2.2 key = storedNext seqs key + 1 ∧
    (∀ k', storedNext seqs k' ≤ storedNext (DocumentSequence.nextResult seqs key).2.2 k') ∧
    List.Pairwise (· < ·) (seqRun seqs key m).1 := by
  refine ⟨?_, ?_, storedNext_nextResult_self seqs key,
    storedNext_nextResult_mono seqs key, ?_⟩
  · intro h
    unfold DocumentSequence.nextResult
    rw [h]
  · intro s h
    unfold DocumentSequence.nextResult
    rw [h]
  · rw [seqRun_numbers]
    exact List.pairwise_lt_range' _ _

/-- C6 witness: creation from an empty table, a draw from an existing
counter, and a strictly increasing 3-call run. -/
theorem C6_sequence_allocator_witness :
    DocumentSequence.nextResult [] "INV_VAT" =
      (1, "SAMDA/" ++ pad6 1, [⟨"INV_VAT", "SAMDA/", 2⟩]) ∧
    DocumentSequence.nextResult [⟨"RECEIPT", "SAMDA/RCT/", 7⟩] "RECEIPT" =
      (7, "SAMDA/RCT/" ++ pad6 7, [⟨"RECEIPT", "SAMDA/RCT/", 8⟩]) ∧
    List.Pairwise (· < ·) (seqRun [] "RECEIPT" 3).1 :=
  ⟨(C6_sequence_allocator [] "INV_VAT" 0).1 (by decide),
   (C6_sequence_allocator [⟨"RECEIPT", "SAMDA/RCT/", 7⟩] "RECEIPT" 0).2.1
     ⟨"RECEIPT", "SAMDA/RCT/", 7⟩ (by decide),
   (C6_sequence_allocator [] "RECEIPT" 3).2.2.2.2⟩

/-- C7: `issue_invoice` on a non-DRAFT invoice returns the invoice and
the sequence database unchanged (no number consumed), and a second
call after any first call is always a no-op. -/
theorem C7_issue_invoice_idempotent (db : List TaxProfile) (seqs : List DocumentSequence)
    (inv : Invoice) :
    (inv.status ≠ Status.DRAFT → issue_invoice db seqs inv = (inv, seqs)) ∧
    issue_invoice db (issue_invoice db seqs inv).2 (issue_invoice db seqs inv).1 =
      ((issue_invoice db seqs inv).1, (issue_invoice db seqs inv).2) := by
  constructor
  · intro h
    exact issue_invoice_non_draft db seqs inv h
  · by_cases h : inv.status = Status.DRAFT
    · have hres : (issue_invoice db seqs inv).1.status = Status.ISSUED := by
        rw [issue_invoice_draft db seqs inv h]
      have hnd : (issue_invoice db seqs inv).1.status ≠ Status.DRAFT := by
        rw [hres]
        intro hh
        cases hh
      exact issue_invoice_non_draft db _ _ hnd
    · have h1 : issue_invoice db seqs inv = (inv, seqs) := issue_invoice_non_draft db seqs inv h
      rw [h1]
      exact issue_invoice_non_draft db seqs inv h

/-- C7 witness: issuing an already-issued invoice is the identity, and
re-issuing the result of any call changes nothing. -/
theorem C7_issue_invoice_idempotent_witness :
    issue_invoice [] [] exInvIssued = (exInvIssued, []) ∧
    issue_invoice [] (issue_invoice [] [] exInvIssued).2 (issue_invoice [] [] exInvIssued).1 =
      ((issue_invoice [] [] exInvIssued).1, (issue_invoice [] [] exInvIssued).2) :=
  ⟨(C7_issue_invoice_idempotent [] [] exInvIssued).1 (by decide),
   (C7_issue_invoice_idempotent [] [] exInvIssued).2⟩

/-- C8: `create_receipt_for_payment` on a payment that already has a
receipt returns that receipt with the sequence table and the world
untouched, and a second call after any first call returns the same
receipt, consuming nothing. -/
theorem C8_receipt_idempotent (db : List TaxProfile) (seqs : List DocumentSequence)
    (w : World) (pid : Nat) :
    (∀ pr, w.receipts.find? (fun q => q.1 == pid) = some pr →
      create_receipt_for_payment db seqs w pid = (pr.2, seqs, w)) ∧
    create_receipt_for_payment db (create_receipt_for_payment db seqs w pid).2.1
        (create_receipt_for_payment db seqs w pid).2.2 pid =
      ((create_receipt_for_payment db seqs w pid).1,
       (create_receipt_for_payment db seqs w pid).2.1,
       (create_receipt_for_payment db seqs w pid).2.2) := by
  have hfirst : ∀ pr, w.receipts.find? (fun q => q.1 == pid) = some pr →
      create_receipt_for_payment db seqs w pid = (pr.2, seqs, w) := by
    intro pr h
    unfold create_receipt_for_payment
    rw [h]
  refine ⟨hfirst, ?_⟩
  cases hf : w.receipts.find? (fun q => q.1 == pid) with
  | some pr =>
    rw [hfirst pr hf]
    exact hfirst pr hf
  | none =>
    have h1 : create_receipt_for_payment db seqs w pid =
        ((Receipt.assign_number_if_needed seqs { receipt_no := "" }).1,
         (Receipt.assign_number_if_needed seqs { receipt_no := "" }).2,
         { (w.allocsOfPayment pid).foldl (fun acc a => settleInvoice db acc a.invoice) w with
           receipts := ((w.allocsOfPayment pid).foldl
             (fun acc a => settleInvoice db acc a.invoice) w).receipts ++
             [(pid, (Receipt.assign_number_if_needed seqs { receipt_no := "" }).1)] }) := by
      unfold create_receipt_for_payment
      rw [hf]
    rw [h1]
    have hrec : ((w.allocsOfPayment pid).foldl
        (fun acc a => settleInvoice db acc a.invoice) w).receipts = w.receipts :=
      settleFold_receipts db _ w
    have hfind : (((w.allocsOfPayment pid).foldl
        (fun acc a => settleInvoice db acc a.invoice) w).receipts ++
          [(pid, (Receipt.assign_number_if_needed seqs { receipt_no := "" }).1)]).find?
          (fun q => q.1 == pid) =
        some (pid, (Receipt.assign_number_if_needed seqs { receipt_no := "" }).1) := by
      rw [hrec, List.find?_append, hf]
      simp
    unfold create_receipt_for_payment
    rw [hfind]

/-- C8 witness: the payment of `exWorldReceipted` already has a
receipt; the call returns it and changes nothing. -/
theorem C8_receipt_idempotent_witness :
    create_receipt_for_payment [] [] exWorldReceipted 0 =
      ({ receipt_no := "SAMDA/RCT/000001" }, [], exWorldReceipted) :=
  (C8_receipt_idempotent [] [] exWorldReceipted 0).1
    (0, { receipt_no := "SAMDA/RCT/000001" }) (by decide)

/-- C9: for a VAT invoice with no frozen profile: if no active profile
exists, all three tax components recompute to `0` (the recomputation
is a total function — there is no error path); when the resolution
finds a profile, it is an active profile from the database whose
`effective_from` is maximal among the active ones. -/
theorem C9_missing_profile_degrades (db : List TaxProfile) (inv : Invoice)
    (_hvat : inv.invoice_type = InvoiceType.VAT) (hnone : inv.tax_profile = none) :
    ((∀ p ∈ db, p.is_active = false) →
      (Invoice.recompute_totals db inv).vat = 0 ∧
      (Invoice.recompute_totals db inv).nhil = 0 ∧
      (Invoice.recompute_totals db inv).getfund = 0) ∧
    (∀ tp, Invoice.resolvedProfile db inv = some tp →
      tp ∈ db ∧ tp.is_active = true ∧
      ∀ q ∈ db, q.is_active = true → q.effective_from ≤ tp.effective_from) := by
  constructor
  · intro h
    have hres : Invoice.resolvedProfile db inv = none := by
      unfold Invoice.resolvedProfile
      rw [hnone]
      exact activeProfileFirst_none h
    unfold Invoice.recompute_totals
    rw [hres]
    simp
  · intro tp h
    have hact : activeProfileFirst db = some tp := by
      unfold Invoice.resolvedProfile at h
      rw [hnone] at h
      exact h
    exact activeProfileFirst_spec hact

/-- C9 witness: an all-inactive database degrades to zero components;
with two active profiles the later one is selected. -/
theorem C9_missing_profile_degrades_witness :
    ((Invoice.recompute_totals [exProfileOff] exInvVatDraft).vat = 0 ∧
     (Invoice.recompute_totals [exProfileOff] exInvVatDraft).nhil = 0 ∧
     (Invoice.recompute_totals [exProfileOff] exInvVatDraft).getfund = 0) ∧
    (exProfile20 ∈ [exProfile15, exProfile20] ∧ exProfile20.is_active = true ∧
     ∀ q ∈ [exProfile15, exProfile20], q.is_active = true →
       q.effective_from ≤ exProfile20.effective_from) :=
  ⟨(C9_missing_profile_degrades [exProfileOff] exInvVatDraft rfl rfl).1 (by decide),
   (C9_missing_profile_degrades [exProfile15, exProfile20] exInvVatDraft rfl rfl).2
     exProfile20 (by decide)⟩

/-- C10: for a DRAFT invoice, `issue_invoice` keeps a pre-assigned
number and consumes no counter; a number is drawn — from the category
matching the invoice type — exactly when `invoice_no` is empty. -/
theorem C10_number_only_when_empty (db : List TaxProfile) (seqs : List DocumentSequence)
    (inv : Invoice) (hd : inv.status = Status.DRAFT) :
    (inv.invoice_no ≠ "" →
      (issue_invoice db seqs inv).1.invoice_no = inv.invoice_no ∧
      (issue_invoice db seqs inv).2 = seqs) ∧
    (inv.invoice_no = "" →
      (issue_invoice db seqs inv).1.invoice_no =
        (DocumentSequence.next seqs
          (if inv.invoice_type = InvoiceType.VAT then "INV_VAT" else "INV_NONVAT")).1 ∧
      (issue_invoice db seqs inv).2 =
        (DocumentSequence.next seqs
          (if inv.invoice_type = InvoiceType.VAT then "INV_VAT" else "INV_NONVAT")).2) := by
  constructor
  · intro hno
    rw [issue_invoice_draft db seqs inv hd, assign_of_nonempty seqs inv hno]
    exact ⟨recompute_invoice_no db inv, rfl⟩
  · intro hno
    by_cases ht : inv.invoice_type = InvoiceType.VAT
    · rw [issue_invoice_draft db seqs inv hd, assign_of_empty_vat seqs inv hno ht, if_pos ht]
      constructor
      · show (Invoice.recompute_totals db
            { inv with invoice_no := (DocumentSequence.next seqs "INV_VAT").1 }).invoice_no =
          (DocumentSequence.next seqs "INV_VAT").1
        rw [recompute_invoice_no]
      · rfl
    · rw [issue_invoice_draft db seqs inv hd, assign_of_empty_nonvat seqs inv hno ht, if_neg ht]
      constructor
      · show (Invoice.recompute_totals db
            { inv with invoice_no := (DocumentSequence.next seqs "INV_NONVAT").1 }).invoice_no =
          (DocumentSequence.next seqs "INV_NONVAT").1
        rw [recompute_invoice_no]
      · rfl

/-- C10 witness: a pre-numbered draft keeps its number with no counter
touched; an unnumbered VAT draft draws from `INV_VAT`. -/
theorem C10_number_only_when_empty_witness :
    ((issue_invoice [] [] exInvPreNumbered).1.invoice_no = exInvPreNumbered.invoice_no ∧
     (issue_invoice [] [] exInvPreNumbered).2 = []) ∧
    ((issue_invoice [] [] exInvVatDraft).1.invoice_no =
       (DocumentSequence.next []
         (if exInvVatDraft.invoice_type = InvoiceType.VAT then "INV_VAT" else "INV_NONVAT")).1 ∧
     (issue_invoice [] [] exInvVatDraft).2 =
       (DocumentSequence.next []
         (if exInvVatDraft.invoice_type = InvoiceType.VAT then "INV_VAT" else "INV_NONVAT")).2) :=
  ⟨(C10_number_only_when_empty [] [] exInvPreNumbered rfl).1 (by decide),
   (C10_number_only_when_empty [] [] exInvVatDraft rfl).2 rfl⟩

end Samda
